import Mathlib

set_option autoImplicit false

namespace YtSpec

/-!
Shallow embedding of the format-selection and caching core of the repository
(src/utils.py and src/app.py).  Strings are Lean Strings (lists of characters),
Python integers are ℤ, Python floats arising from true division of integers by
powers of two are modelled exactly as ℚ (for |bytes| < 2^53 the doubles involved
are exact, and the "%.1f" formatting is correctly-rounded half-even decimal
conversion, which the model reproduces on ℚ).  The external extraction engine
(yt_dlp) is an oracle parameter.
-/

/-! URL parsing: model of urllib.parse.urlparse restricted to the fields the
source reads (netloc and path).  Scheme splitting, the "//" netloc scan,
fragment/query splitting and params splitting follow CPython's urlsplit and
_splitparams.  Omitted: removal of embedded tab/newline characters and the
bracket (IPv6) validity check, which raises ValueError in CPython; the source
wraps every urlparse call in try/except returning the fallback, which for the
functions below coincides with the value our total model returns. -/

def scheme_char (c : Char) : Bool :=
  c.isAlpha || c.isDigit || c == '+' || c == '-' || c == '.'

def breakAtColon : List Char → Option (List Char × List Char)
  | [] => none
  | c :: cs =>
    if c = ':' then some ([], cs)
    else
      match breakAtColon cs with
      | none => none
      | some (pre, post) => some (c :: pre, post)

/-- CPython urlsplit: i = url.find(':'); if i > 0 and url[0] is an (ascii)
letter and every char of url[:i] is a scheme char, the scheme is split off
(lower-cased); otherwise the url is left whole. -/
def split_scheme (l : List Char) : List Char × List Char :=
  match breakAtColon l with
  | none => ([], l)
  | some (pre, post) =>
    if !pre.isEmpty && (pre.headD ' ').isAlpha && pre.all scheme_char then
      (pre.map Char.toLower, post)
    else ([], l)

def stop_char (c : Char) : Bool := c == '/' || c == '?' || c == '#'

/-- CPython _splitnetloc: when the remainder starts with "//", the netloc runs
up to the first of '/', '?', '#'; the delimiter stays with the remainder. -/
def split_netloc (l : List Char) : List Char × List Char :=
  match l with
  | '/' :: '/' :: rest =>
    (rest.takeWhile (fun c => !stop_char c), rest.dropWhile (fun c => !stop_char c))
  | _ => ([], l)

/-- Python s.split(sep, 1): (part before first sep, part after); when sep is
absent the second component is empty — matching urlsplit's fragment and query
handling. -/
def split_at_char (sep : Char) (l : List Char) : List Char × List Char :=
  (l.takeWhile (· != sep), (l.dropWhile (· != sep)).drop 1)

/-- CPython urllib.parse.uses_params. -/
def uses_params : List String :=
  ["", "ftp", "hdl", "prospero", "http", "imap", "https", "shttp", "rtsp",
   "rtspu", "sip", "sips", "mms", "sftp", "tel"]

/-- CPython _splitparams: split ";params" off the last path segment. -/
def split_params (l : List Char) : List Char × List Char :=
  if l.contains '/' then
    let suf := (l.reverse.takeWhile (· != '/')).reverse
    let pre := (l.reverse.dropWhile (· != '/')).reverse
    if suf.contains ';' then
      (pre ++ suf.takeWhile (· != ';'), (suf.dropWhile (· != ';')).drop 1)
    else (l, [])
  else
    if l.contains ';' then (l.takeWhile (· != ';'), (l.dropWhile (· != ';')).drop 1)
    else (l, [])

structure UrlParts where
  scheme : String
  netloc : String
  path : String
  params : String
  query : String
  fragment : String
deriving DecidableEq

def urlparse (url : String) : UrlParts :=
  let sp := split_scheme url.data
  let nl := split_netloc sp.2
  let fr := split_at_char '#' nl.2
  let qu := split_at_char '?' fr.1
  let pp :=
    if uses_params.contains (String.mk sp.1) && qu.1.contains ';' then split_params qu.1
    else (qu.1, [])
  { scheme := String.mk sp.1
    netloc := String.mk nl.1
    path := String.mk pp.1
    params := String.mk pp.2
    query := String.mk qu.2
    fragment := String.mk fr.2 }

/-- src/utils.py is_valid_youtube_url: netloc membership in the fixed
allow-list. -/
def is_valid_youtube_url (url : String) : Bool :=
  let d := (urlparse url).netloc
  d == "www.youtube.com" || d == "youtube.com" || d == "youtu.be" || d == "m.youtube.com"

/-- The video id of a short link: the path with leading slashes stripped and
(the dead branch of the source, since urlparse already removed the query) any
trailing query dropped. -/
def shortlink_video_id (parsed : UrlParts) : List Char :=
  let vid0 := parsed.path.data.dropWhile (· == '/')
  if vid0.contains '?' then vid0.takeWhile (· != '?') else vid0

/-- src/utils.py normalize_youtube_url: rewrite youtu.be short links to the
canonical watch URL; everything else is returned unchanged. -/
def normalize_youtube_url (url : String) : String :=
  let parsed := urlparse url
  if parsed.netloc = "youtu.be" then
    "https://www.youtube.com/watch?v=" ++ String.mk (shortlink_video_id parsed)
  else url

/-! Size labels.  The source builds human-readable strings ("900.0 KB",
"2.0 MB", "Unknown MB", "N/A") and later re-parses them with
float(label.split()[0]).  The model keeps the rendered one-decimal value in
TENTHS as an exact integer, together with its unit; this determines the
rendered string and the parsed-back number exactly.  (For |bytes| < 2^53 the
Python doubles bytes/1024 and bytes/(1024*1024) are exact dyadic rationals, so
"%.1f" is round-half-even of the exact quotient, reproduced below over ℤ; and
comparing parsed-back short decimals as doubles agrees with comparing their
decimal values, hence with comparing tenths.) -/

/-- Round-half-even of x / d for d > 0, the "%.1f" rounding applied to an
exact quotient (Int.ediv/emod is floor division for a positive divisor). -/
def roundHalfEvenDiv (x d : ℤ) : ℤ :=
  let n := x.ediv d
  let r2 := 2 * x.emod d
  if r2 < d then n
  else if d < r2 then n + 1
  else if n.emod 2 = 0 then n else n + 1

inductive SizeLabel where
  | na
  | unknownMB
  | kb (tenths : ℤ)
  | mb (tenths : ℤ)
deriving DecidableEq

/-- src/utils.py format_file_size; the branch test size_mb < 1 is equivalent
to bytes < 1024*1024 because the division is exact. -/
def format_file_size (bytes : Option ℤ) : SizeLabel :=
  match bytes with
  | none => SizeLabel.na
  | some b =>
    if b < 1024 * 1024 then SizeLabel.kb (roundHalfEvenDiv (10 * b) 1024)
    else SizeLabel.mb (roundHalfEvenDiv (10 * b) (1024 * 1024))

/-- Rendering of a tenths value, "%.1f" style (only applied to nonnegative
sizes). -/
def render1f (t : ℤ) : String :=
  toString (t.ediv 10) ++ "." ++ toString (t.emod 10)

def showSizeLabel : SizeLabel → String
  | SizeLabel.na => "N/A"
  | SizeLabel.unknownMB => "Unknown MB"
  | SizeLabel.kb t => render1f t ++ " KB"
  | SizeLabel.mb t => render1f t ++ " MB"

/-- The sort key the source computes as
float(x.filesize.split()[0]) if 'Unknown' not in x.filesize else 0,
scaled to tenths: the numeric prefix of the label is its stored tenths value
over 10, whatever the unit, so comparing keys in tenths is exactly the
source's float comparison.  (The na case would raise in Python; it is
unreachable in the pipeline because format_file_size is only applied to a
present filesize.) -/
def label_sort_key : SizeLabel → ℤ
  | SizeLabel.unknownMB => 0
  | SizeLabel.kb t => t
  | SizeLabel.mb t => t
  | SizeLabel.na => 0

/-! The format ranker (src/utils.py get_video_info, lines 135-201). -/

/-- A raw format record as reported by the external engine; Option models an
absent key (f.get). -/
structure RawFormat where
  format_id : Option String
  ext : Option String
  resolution : Option String
  height : Option ℤ
  filesize : Option ℤ
  vcodec : Option String
  acodec : Option String
deriving DecidableEq

def priority_heights : List ℤ := [360, 480, 720, 1080]

/-- Python str.split(sep) for a single-character separator. -/
def splitOnChar (sep : Char) : List Char → List (List Char)
  | [] => [[]]
  | c :: cs =>
    if c = sep then [] :: splitOnChar sep cs
    else
      match splitOnChar sep cs with
      | [] => [[c]]
      | h :: t => (c :: h) :: t

/-- src/utils.py format_resolution (defined twice with identical bodies in the
source): resolution.split('x')[1] + "p" when an 'x' is present. -/
def format_resolution (resolution : String) : String :=
  if resolution = "" ∨ resolution = "N/A" then "N/A"
  else if resolution.data.contains 'x' then
    String.mk ((splitOnChar 'x' resolution.data).getD 1 []) ++ "p"
  else resolution

/-- The dict appended into priority_formats[height] (lines 155-161). -/
structure PFEntry where
  format_id : String
  quality : String
  ext : String
  resolution : String
  filesize : SizeLabel
deriving DecidableEq

def pf_entry (f : RawFormat) : PFEntry :=
  let resolution := f.resolution.getD "N/A"
  let ext := f.ext.getD "N/A"
  { format_id := f.format_id.getD ""
    quality := format_resolution resolution ++ " (" ++ ext ++ ")"
    ext := ext
    resolution := resolution
    filesize :=
      match f.filesize with
      | some b => if b ≠ 0 then format_file_size (some b) else SizeLabel.unknownMB
      | none => SizeLabel.unknownMB }

/-- priority_formats[h] of the grouping loop (lines 140-161): entries with a
video codec, a truthy height equal to h, h in the priority list, in input
order. -/
def priority_group (fs : List RawFormat) (h : ℤ) : List PFEntry :=
  fs.filterMap (fun f =>
    if f.vcodec = some "none" then none
    else
      match f.height with
      | none => none
      | some ht =>
        if ht = 0 then none
        else if priority_heights.contains ht ∧ ht = h then some (pf_entry f)
        else none)

/-- One comparison step of sorted(l, key=label_sort_key, reverse=True)[0]. -/
def better_format (acc : Option PFEntry) (x : PFEntry) : Option PFEntry :=
  match acc with
  | none => some x
  | some b =>
    if label_sort_key b.filesize < label_sort_key x.filesize then some x else some b

/-- sorted(l, key=label_sort_key, reverse=True)[0]: the first entry carrying
the maximal sort key (Python's sort is stable, also under reverse=True). -/
def best_by_filesize (l : List PFEntry) : Option PFEntry :=
  l.foldl better_format none

/-- The per-tier selection (lines 163-177): prefer mp4, tie-break on the label
sort key; with no mp4 take the first grouped entry. -/
def select_format (fs : List RawFormat) (h : ℤ) : Option PFEntry :=
  let g := priority_group fs h
  if g.isEmpty then none
  else
    let mp4_formats := g.filter (fun f => f.ext == "mp4")
    if mp4_formats.isEmpty then g.head?
    else best_by_filesize mp4_formats

/-- The formats list built by the loop over priority_heights. -/
def ranked_entries (fs : List RawFormat) : List PFEntry :=
  priority_heights.filterMap (select_format fs)

structure RankedFormat where
  format_id : String
  quality : String
  extension : String
  filesize : String
  has_audio : Bool
deriving DecidableEq

/-- The re-scan of the full raw list for an audio-capable entry with the same
format_id (lines 186-190). -/
def has_audio_scan (fs : List RawFormat) (fid : String) : Bool :=
  fs.any (fun f => f.format_id == some fid && f.acodec != some "none")

def beginsWith : List Char → List Char → Bool
  | _, [] => true
  | [], _ :: _ => false
  | c :: cs, d :: ds => c == d && beginsWith cs ds

/-- Python substring containment (needle in hay). -/
def hasSubstring (hay needle : List Char) : Bool :=
  match hay with
  | [] => needle.isEmpty
  | _ :: t => beginsWith hay needle || hasSubstring t needle

/-- '/shorts/' in url (line 193) — checked on the original, un-normalized
url. -/
def is_shorts_url (url : String) : Bool :=
  hasSubstring url.data "/shorts/".data

/-- The display loop body (lines 180-201). -/
def display_format (fs : List RawFormat) (url : String) (fmt : PFEntry) : RankedFormat :=
  let resolution_display := format_resolution fmt.resolution
  let has_audio := has_audio_scan fs fmt.format_id
  let is_shorts := is_shorts_url url
  { format_id := fmt.format_id
    quality :=
      if fmt.ext = "mp4" then resolution_display
      else resolution_display ++ " (" ++ fmt.ext ++ ")"
    extension := fmt.ext
    filesize :=
      if fmt.filesize ≠ SizeLabel.unknownMB then showSizeLabel fmt.filesize else "0 MB"
    has_audio := if is_shorts then true else has_audio }

def formatted_formats (fs : List RawFormat) (url : String) : List RankedFormat :=
  (ranked_entries fs).map (display_format fs url)

/-! The info cache and the get_video_info orchestration. -/

structure RawInfo where
  title : Option String
  thumbnail : Option String
  duration : Option ℤ
  uploader : Option String
  formats : List RawFormat
deriving DecidableEq

structure VideoInfo where
  title : String
  thumbnail : String
  duration : Option ℤ
  uploader : String
  formats : List RankedFormat
deriving DecidableEq

/-- The result dict (lines 203-209). -/
def build_video_info (info : RawInfo) (url : String) : VideoInfo :=
  { title := info.title.getD "Unknown Title"
    thumbnail := info.thumbnail.getD ""
    duration := info.duration
    uploader := info.uploader.getD "Unknown Uploader"
    formats := formatted_formats info.formats url }

/-- VIDEO_INFO_CACHE: a Python dict from url string to (timestamp, VideoInfo);
timestamps are time.time() values, modelled as ℚ. -/
abbrev InfoCache := List (String × (ℚ × VideoInfo))

def CACHE_EXPIRY : ℚ := 3600

def cache_find (c : InfoCache) (k : String) : Option (ℚ × VideoInfo) :=
  match c with
  | [] => none
  | (k2, e) :: rest => if k2 = k then some e else cache_find rest k

/-- Python dict assignment: replace in place or append. -/
def cache_store (c : InfoCache) (k : String) (e : ℚ × VideoInfo) : InfoCache :=
  match c with
  | [] => [(k, e)]
  | (k2, e2) :: rest => if k2 = k then (k2, e) :: rest else (k2, e2) :: cache_store rest k e

/-- The cache lookup of lines 99-105: a pure read returning the hit (if fresh)
and the — untouched — backing mapping. -/
def cache_lookup (c : InfoCache) (k : String) (now : ℚ) : Option VideoInfo × InfoCache :=
  match cache_find c k with
  | some (t, v) => (if now - t < CACHE_EXPIRY then some v else none, c)
  | none => (none, c)

/-- Behavior of the external extraction engine on this request. -/
inductive ExtractOutcome where
  | raised (msg : String)
  | noData
  | extracted (info : RawInfo)
deriving DecidableEq

/-- src/utils.py get_video_info with the engine as an oracle; now is the
time.time() of the lookup, store_time the one of the store (line 212).
Note that the store at line 212 keys the entry by the ORIGINAL url, while the
lookup at line 101 uses the normalized url. -/
def get_video_info (cache : InfoCache) (url : String) (now : ℚ)
    (engine : ExtractOutcome) (store_time : ℚ) : Except String VideoInfo × InfoCache :=
  if ¬ is_valid_youtube_url url then (Except.error "Not a valid YouTube URL", cache)
  else
    match (cache_lookup cache (normalize_youtube_url url) now).1 with
    | some v => (Except.ok v, cache)
    | none =>
      match engine with
      | ExtractOutcome.raised m =>
        (Except.error ("Error fetching video info: " ++ m), cache)
      | ExtractOutcome.noData =>
        (Except.error ("Error fetching video info: Failed to extract video information. Please check if the URL is valid."), cache)
      | ExtractOutcome.extracted info =>
        let result := build_video_info info url
        (Except.ok result, cache_store cache url (store_time, result))

/-! The two Flask endpoints of src/app.py, with external effects as oracles. -/

inductive InfoResponse where
  | ok (v : VideoInfo) (status : Nat)
  | err (message : String) (status : Nat)
deriving DecidableEq

/-- src/app.py fetch_info (lines 30-46): any exception — including the
ValueError for an invalid URL — is caught and replaced by a fixed generic
message. -/
def fetch_info_route (form_url : Option String) (cache : InfoCache) (now : ℚ)
    (engine : ExtractOutcome) (store_time : ℚ) : InfoResponse :=
  match form_url with
  | none => InfoResponse.err "Please provide a valid YouTube URL" 400
  | some url =>
    if url = "" then InfoResponse.err "Please provide a valid YouTube URL" 400
    else
      match (get_video_info cache url now engine store_time).1 with
      | Except.ok v => InfoResponse.ok v 200
      | Except.error _ =>
        InfoResponse.err "Failed to extract video information. Please check if the URL is valid." 400

/-- Behavior of the external engine for a download request. -/
inductive DownloadOutcome where
  | raised (msg : String)
  | noData
  | finished (filepath : String)
deriving DecidableEq

def basename (p : String) : String :=
  String.mk ((p.data.reverse.takeWhile (· != '/')).reverse)

/-- src/utils.py download_video: every exception is wrapped as
"Error downloading video: " ++ detail and re-raised. -/
def download_video (url : String) (format_id : String) (engine : DownloadOutcome) :
    Except String (String × String) :=
  match engine with
  | DownloadOutcome.raised m => Except.error ("Error downloading video: " ++ m)
  | DownloadOutcome.noData =>
    Except.error ("Error downloading video: Failed to extract video information for download. Please check if the URL is valid.")
  | DownloadOutcome.finished fp => Except.ok (fp, basename fp)

inductive DlResponse where
  | file (filepath filename : String)
  | err (message : String) (status : Nat)
deriving DecidableEq

/-- src/app.py download (lines 48-86): the except branch returns
jsonify(error=str(e)) — the raised message itself — with status 400. -/
def download_route (form_url form_format : Option String) (engine : DownloadOutcome)
    (file_exists : String → Bool) : DlResponse :=
  match form_url, form_format with
  | some url, some fid =>
    if url = "" ∨ fid = "" then DlResponse.err "Missing URL or format" 400
    else
      match download_video url fid engine with
      | Except.error e => DlResponse.err e 400
      | Except.ok (fp, fn) =>
        if file_exists fp then DlResponse.file fp fn
        else DlResponse.err "Downloaded file not found" 500
  | _, _ => DlResponse.err "Missing URL or format" 400

/-- The list of tiers an input actually populates (used to state the claims
about the shape of ranked_entries). -/
def tiers_of (fs : List RawFormat) : List ℤ :=
  priority_heights.filter (fun h => (select_format fs h).isSome)

/-! Concrete sample inputs used by counterexamples and witnesses. -/

/-- An mp4 video-only format at tier 360 of 900 KiB (labelled "900.0 KB"). -/
def fmtA : RawFormat :=
  ⟨some "A", some "mp4", some "640x360", some 360, some 921600, some "avc1", some "none"⟩

/-- An mp4 video-only format at tier 360 of 2 MiB (labelled "2.0 MB"). -/
def fmtB : RawFormat :=
  ⟨some "B", some "mp4", some "640x360", some 360, some 2097152, some "avc1", some "none"⟩

/-- A webm video-only format at tier 360 of about 8.6 MiB. -/
def fmtW : RawFormat :=
  ⟨some "W", some "webm", some "640x360", some 360, some 9000000, some "vp9", some "none"⟩

/-- An mp4 format at tier 360 whose reported filesize is exactly 0 bytes. -/
def fmtZ : RawFormat :=
  ⟨some "Z", some "mp4", some "640x360", some 360, some 0, some "avc1", some "none"⟩

def shortUrl : String := "https://youtu.be/dQw4w9WgXcQ"

def shortsUrl : String := "https://www.youtube.com/shorts/abc"

def exRawInfo : RawInfo := ⟨some "T", some "thumb", some 10, some "U", [fmtA, fmtB]⟩

def exVideoInfo : VideoInfo := build_video_info exRawInfo shortUrl

/-! Helper lemmas. -/

/-- Parsing the canonical rewrite never reaches the appended video id while
computing the host: the scan stops at the slash after the concrete host.
Definitional, because all parsing functions are lazy in the list tail. -/
theorem netloc_of_rewrite (s : List Char) :
    (urlparse ("https://www.youtube.com/watch?v=" ++ String.mk s)).netloc
      = "www.youtube.com" := rfl

theorem normalize_of_not_shortlink (u : String) (h : (urlparse u).netloc ≠ "youtu.be") :
    normalize_youtube_url u = u := by
  simp [normalize_youtube_url, h]

theorem normalize_of_shortlink (u : String) (h : (urlparse u).netloc = "youtu.be") :
    normalize_youtube_url u
      = "https://www.youtube.com/watch?v=" ++ String.mk (shortlink_video_id (urlparse u)) := by
  simp [normalize_youtube_url, h]

/-- C7: normalize is idempotent, and a URL that is not a short link is
returned unchanged. -/
theorem C7_normalize_idempotent (url : String) :
    normalize_youtube_url (normalize_youtube_url url) = normalize_youtube_url url ∧
    ((urlparse url).netloc ≠ "youtu.be" → normalize_youtube_url url = url) := by
  refine ⟨?_, fun h => normalize_of_not_shortlink url h⟩
  by_cases h : (urlparse url).netloc = "youtu.be"
  · rw [normalize_of_shortlink url h]
    refine normalize_of_not_shortlink _ ?_
    rw [netloc_of_rewrite]
    decide
  · rw [normalize_of_not_shortlink url h]
    exact normalize_of_not_shortlink url h

theorem filterMap_eq_on_filter {α β : Type} (f : α → Option β) (l : List α) :
    l.filterMap f = (l.filter (fun a => (f a).isSome)).filterMap f := by
  induction l with
  | nil => rfl
  | cons a t ih =>
    cases hfa : f a with
    | none => simp [List.filterMap_cons, List.filter_cons, hfa, ih]
    | some b => simp [List.filterMap_cons, List.filter_cons, hfa, ih]

theorem length_filterMap_of_all_isSome {α β : Type} (f : α → Option β) (l : List α)
    (h : ∀ a ∈ l, (f a).isSome) : (l.filterMap f).length = l.length := by
  induction l with
  | nil => rfl
  | cons a t ih =>
    cases hfa : f a with
    | none =>
      have := h a (List.mem_cons_self a t)
      rw [hfa] at this
      exact absurd this (by simp)
    | some b =>
      rw [List.filterMap_cons, hfa]
      simp only [List.length_cons]
      rw [ih (fun x hx => h x (List.mem_cons_of_mem a hx))]

theorem foldl_better_spec (l : List PFEntry) :
    ∀ (acc : Option PFEntry) (q : PFEntry), l.foldl better_format acc = some q →
      (acc = some q ∨ q ∈ l) ∧
      (∀ b, acc = some b → label_sort_key b.filesize ≤ label_sort_key q.filesize) ∧
      (∀ r ∈ l, label_sort_key r.filesize ≤ label_sort_key q.filesize) := by
  induction l with
  | nil =>
    intro acc q h
    simp only [List.foldl_nil] at h
    refine ⟨Or.inl h, fun b hb => ?_, fun r hr => absurd hr (List.not_mem_nil r)⟩
    rw [h] at hb
    cases hb
    exact le_refl _
  | cons x t ih =>
    intro acc q h
    rw [List.foldl_cons] at h
    obtain ⟨h1, h2, h3⟩ := ih (better_format acc x) q h
    have hx : label_sort_key x.filesize ≤ label_sort_key q.filesize := by
      cases hacc : acc with
      | none => exact h2 x (by rw [hacc] at *; rfl)
      | some b =>
        rw [hacc] at h2
        by_cases hlt : label_sort_key b.filesize < label_sort_key x.filesize
        · exact h2 x (by simp [better_format, hlt])
        · exact le_trans (le_of_not_lt hlt) (h2 b (by simp [better_format, hlt]))
    refine ⟨?_, ?_, ?_⟩
    · rcases h1 with h1 | h1
      · cases hacc : acc with
        | none =>
          rw [hacc] at h1
          simp only [better_format, Option.some.injEq] at h1
          exact Or.inr (h1 ▸ List.mem_cons_self x t)
        | some b =>
          rw [hacc] at h1
          simp only [better_format] at h1
          by_cases hlt : label_sort_key b.filesize < label_sort_key x.filesize
          · rw [if_pos hlt] at h1
            cases h1
            exact Or.inr (List.mem_cons_self x t)
          · rw [if_neg hlt] at h1
            exact Or.inl h1
      · exact Or.inr (List.mem_cons_of_mem x h1)
    · intro b hb
      cases hb
      by_cases hlt : label_sort_key b.filesize < label_sort_key x.filesize
      · exact le_trans (le_of_lt hlt) hx
      · exact h2 b (by simp [better_format, hlt])
    · intro r hr
      rcases List.mem_cons.mp hr with hr | hr
      · exact hr ▸ hx
      · exact h3 r hr

theorem best_by_filesize_spec (l : List PFEntry) (q : PFEntry)
    (h : best_by_filesize l = some q) :
    q ∈ l ∧ ∀ r ∈ l, label_sort_key r.filesize ≤ label_sort_key q.filesize := by
  obtain ⟨h1, _, h3⟩ := foldl_better_spec l none q h
  exact ⟨h1.resolve_left (by simp), h3⟩

theorem foldl_better_some (l : List PFEntry) :
    ∀ (b : PFEntry), l.foldl better_format (some b) ≠ none := by
  induction l with
  | nil => intro b h; exact absurd h (by simp)
  | cons x t ih =>
    intro b
    rw [List.foldl_cons]
    by_cases hlt : label_sort_key b.filesize < label_sort_key x.filesize
    · simpa [better_format, hlt] using ih x
    · simpa [better_format, hlt] using ih b

theorem best_by_filesize_ne_none (l : List PFEntry) (hl : l ≠ []) :
    best_by_filesize l ≠ none := by
  cases l with
  | nil => exact absurd rfl hl
  | cons x t =>
    rw [best_by_filesize, List.foldl_cons]
    simpa [better_format] using foldl_better_some t x

theorem mem_priority_group (fs : List RawFormat) (h : ℤ) (e : PFEntry)
    (he : e ∈ priority_group fs h) :
    ∃ f ∈ fs, f.vcodec ≠ some "none" ∧ f.height = some h ∧ h ≠ 0 ∧
      priority_heights.contains h = true ∧ e = pf_entry f := by
  rw [priority_group] at he
  obtain ⟨f, hf, hfe⟩ := List.mem_filterMap.mp he
  by_cases hv : f.vcodec = some "none"
  · simp [hv] at hfe
  · cases hh : f.height with
    | none => simp [hv, hh] at hfe
    | some ht =>
      by_cases h0 : ht = 0
      · simp [hv, hh, h0] at hfe
      · by_cases hc : priority_heights.contains ht = true ∧ ht = h
        · obtain ⟨hc1, hc2⟩ := hc
          rw [if_neg hv, hh] at hfe
          simp only [if_neg h0, if_pos (And.intro hc1 hc2), Option.some.injEq] at hfe
          subst hc2
          exact ⟨f, hf, hv, hh, h0, hc1, hfe.symm⟩
        · rw [if_neg hv, hh] at hfe
          simp only [if_neg h0, if_neg hc] at hfe
          exact Option.noConfusion hfe

theorem select_format_isSome_group_ne_nil (fs : List RawFormat) (h : ℤ)
    (hs : (select_format fs h).isSome) : priority_group fs h ≠ [] := by
  intro hnil
  rw [select_format, hnil] at hs
  simp at hs

/-! The claim theorems. -/

/-- C5: the ranker emits at most one entry per target tier, in strictly
ascending tier order, and every tier it represents has a qualifying raw entry
of that exact height in the input; unrepresented tiers are absent, not
padded. -/
theorem C5_tiers_shape (fs : List RawFormat) :
    List.Pairwise (· < ·) (tiers_of fs) ∧
    ranked_entries fs = (tiers_of fs).filterMap (select_format fs) ∧
    (ranked_entries fs).length = (tiers_of fs).length ∧
    (∀ h ∈ tiers_of fs, ∃ f ∈ fs, f.vcodec ≠ some "none" ∧ f.height = some h) := by
  refine ⟨?_, ?_, ?_, ?_⟩
  · exact List.Pairwise.sublist (List.filter_sublist _)
      (by decide : List.Pairwise (· < ·) priority_heights)
  · rw [ranked_entries, tiers_of]
    exact filterMap_eq_on_filter _ _
  · rw [ranked_entries, tiers_of, filterMap_eq_on_filter]
    exact length_filterMap_of_all_isSome _ _ (fun a ha => (List.mem_filter.mp ha).2)
  · intro h hmem
    rw [tiers_of] at hmem
    have hs : (select_format fs h).isSome := (List.mem_filter.mp hmem).2
    have hg : priority_group fs h ≠ [] := select_format_isSome_group_ne_nil fs h hs
    obtain ⟨e, he⟩ := List.exists_mem_of_ne_nil _ hg
    obtain ⟨f, hf, hv, hh, _, _, _⟩ := mem_priority_group fs h e he
    exact ⟨f, hf, hv, hh⟩

/-- C6: a tier holding both an mp4 entry and a non-mp4 entry always resolves
to an mp4 entry, whatever the reported sizes. -/
theorem C6_prefers_mp4 (fs : List RawFormat) (h : ℤ)
    (hmp4 : ∃ e ∈ priority_group fs h, e.ext = "mp4")
    (hnon : ∃ e ∈ priority_group fs h, e.ext ≠ "mp4") :
    ∃ q, select_format fs h = some q ∧ q.ext = "mp4" := by
  obtain ⟨e, he, hext⟩ := hmp4
  have hmem : e ∈ (priority_group fs h).filter (fun f => f.ext == "mp4") :=
    List.mem_filter.mpr ⟨he, by simp [hext]⟩
  have hgne : (priority_group fs h).isEmpty = false := by
    simp only [List.isEmpty_eq_false_iff_exists_mem]
    exact ⟨e, he⟩
  have hfne : ((priority_group fs h).filter (fun f => f.ext == "mp4")).isEmpty = false := by
    simp only [List.isEmpty_eq_false_iff_exists_mem]
    exact ⟨e, hmem⟩
  cases hq : best_by_filesize ((priority_group fs h).filter (fun f => f.ext == "mp4")) with
  | none => exact absurd hq (best_by_filesize_ne_none _ (List.ne_nil_of_mem hmem))
  | some q =>
    refine ⟨q, ?_, ?_⟩
    · simp [select_format, hgne, hfne, hq]
    · have hqm := (best_by_filesize_spec _ q hq).1
      have h2 := (List.mem_filter.mp hqm).2
      simpa using h2

/-- C2 (amended): within a tier, among the surviving mp4 entries the ranker
selects one whose size-label sort key — the numeric prefix of the
human-readable size string, measured in KB for sizes under one MB and in MB
otherwise, and 0 for an unknown size — is maximal.  (Largest reported byte
size is NOT guaranteed when labels mix units; see the counterexample.) -/
theorem C2_amended_label_key_max (fs : List RawFormat) (h : ℤ)
    (hne : (priority_group fs h).filter (fun f => f.ext == "mp4") ≠ []) :
    ∃ q, select_format fs h = some q ∧
      q ∈ (priority_group fs h).filter (fun f => f.ext == "mp4") ∧
      ∀ r ∈ (priority_group fs h).filter (fun f => f.ext == "mp4"),
        label_sort_key r.filesize ≤ label_sort_key q.filesize := by
  obtain ⟨e, he⟩ := List.exists_mem_of_ne_nil _ hne
  have hgne : (priority_group fs h).isEmpty = false := by
    simp only [List.isEmpty_eq_false_iff_exists_mem]
    exact ⟨e, (List.mem_filter.mp he).1⟩
  have hfne : ((priority_group fs h).filter (fun f => f.ext == "mp4")).isEmpty = false := by
    simp only [List.isEmpty_eq_false_iff_exists_mem]
    exact ⟨e, he⟩
  cases hq : best_by_filesize ((priority_group fs h).filter (fun f => f.ext == "mp4")) with
  | none => exact absurd hq (best_by_filesize_ne_none _ hne)
  | some q =>
    obtain ⟨hqmem, hqmax⟩ := best_by_filesize_spec _ q hq
    refine ⟨q, ?_, hqmem, hqmax⟩
    simp [select_format, hgne, hfne, hq]

/-- C2 counterexample: at tier 360 both surviving entries are mp4; fmtB
reports the strictly larger filesize in bytes (2 MiB versus 900 KiB), yet the
ranker selects fmtA, because the comparison key is the numeric prefix of the
label (900.0 "KB" against 2.0 "MB"). -/
theorem C2_counterexample :
    (select_format [fmtA, fmtB] 360).map (fun e => e.format_id) = some "A" ∧
    fmtA.filesize = some 921600 ∧ fmtB.filesize = some 2097152 ∧
    (921600 : ℤ) < 2097152 ∧
    pf_entry fmtB ∈ (priority_group [fmtA, fmtB] 360).filter (fun f => f.ext == "mp4") ∧
    (pf_entry fmtB).format_id = "B" ∧ (pf_entry fmtA).format_id = "A" := by
  decide

/-- C4: a Shorts URL forces has_audio true on every produced format,
irrespective of the audio scan over the raw list. -/
theorem C4_shorts_forces_has_audio (url : String) (fs : List RawFormat)
    (hsh : is_shorts_url url = true) :
    ∀ rf ∈ formatted_formats fs url, rf.has_audio = true := by
  intro rf hrf
  rw [formatted_formats] at hrf
  obtain ⟨fmt, _, rfl⟩ := List.mem_map.mp hrf
  simp [display_format, hsh]

theorem C4_witness :
    is_shorts_url shortsUrl = true ∧
    ∀ rf ∈ formatted_formats [fmtA, fmtB] shortsUrl, rf.has_audio = true :=
  ⟨by decide, C4_shorts_forces_has_audio shortsUrl [fmtA, fmtB] (by decide)⟩

theorem C6_witness :
    (∃ e ∈ priority_group [fmtW, fmtA] 360, e.ext = "mp4") ∧
    (∃ e ∈ priority_group [fmtW, fmtA] 360, e.ext ≠ "mp4") ∧
    (∃ q, select_format [fmtW, fmtA] 360 = some q ∧ q.ext = "mp4") :=
  ⟨by decide, by decide, C6_prefers_mp4 [fmtW, fmtA] 360 (by decide) (by decide)⟩

theorem C2_amended_witness :
    ((priority_group [fmtA, fmtB] 360).filter (fun f => f.ext == "mp4") ≠ []) ∧
    (∃ q, select_format [fmtA, fmtB] 360 = some q ∧
      q ∈ (priority_group [fmtA, fmtB] 360).filter (fun f => f.ext == "mp4") ∧
      ∀ r ∈ (priority_group [fmtA, fmtB] 360).filter (fun f => f.ext == "mp4"),
        label_sort_key r.filesize ≤ label_sort_key q.filesize) :=
  ⟨by decide, C2_amended_label_key_max [fmtA, fmtB] 360 (by decide)⟩

/-- C1: the claim fails on the code.  A successful extraction for the short
link stores the entry under the ORIGINAL url (src/utils.py line 212), not the
normalized one, so an immediately following request for the very same
short-link URL — which looks up the normalized key (line 101) — is a cache
miss and hits the engine again (here: surfacing the engine's error instead of
the cached value, well inside the expiry window). -/
theorem C1_cache_key_mismatch :
    (get_video_info [] shortUrl 0 (ExtractOutcome.extracted exRawInfo) 0).1
      = Except.ok exVideoInfo ∧
    (get_video_info [] shortUrl 0 (ExtractOutcome.extracted exRawInfo) 0).2
      = [(shortUrl, (0, exVideoInfo))] ∧
    cache_find (get_video_info [] shortUrl 0 (ExtractOutcome.extracted exRawInfo) 0).2
      (normalize_youtube_url shortUrl) = none ∧
    (get_video_info [(shortUrl, (0, exVideoInfo))] shortUrl 1
        (ExtractOutcome.raised "boom") 1).1
      = Except.error "Error fetching video info: boom" :=
  ⟨rfl, rfl, rfl, rfl⟩

/-- C3 counterexample: on an engine exception the download endpoint's response
carries the exception's detail text ("boom" is a substring of the body), while
the info endpoint replies with the fixed generic message. -/
theorem C3_download_leaks_detail :
    download_route (some "https://www.youtube.com/watch?v=abc") (some "137")
        (DownloadOutcome.raised "boom") (fun _ => true)
      = DlResponse.err "Error downloading video: boom" 400 ∧
    hasSubstring "Error downloading video: boom".data "boom".data = true ∧
    fetch_info_route (some "https://www.youtube.com/watch?v=abc") [] 0
        (ExtractOutcome.raised "boom") 0
      = InfoResponse.err "Failed to extract video information. Please check if the URL is valid." 400 :=
  ⟨rfl, by decide, rfl⟩

/-- C3 (amended): for any exception from the external layer the info endpoint
surfaces a fixed generic message, but the download endpoint returns the
wrapped exception message — which embeds the detail text — to the caller. -/
theorem C3_amended_download_exposes_detail (url fid m : String) (now st : ℚ)
    (fe : String → Bool) (hu : url ≠ "") (hf : fid ≠ "") :
    fetch_info_route (some url) [] now (ExtractOutcome.raised m) st
      = InfoResponse.err "Failed to extract video information. Please check if the URL is valid." 400 ∧
    download_route (some url) (some fid) (DownloadOutcome.raised m) fe
      = DlResponse.err ("Error downloading video: " ++ m) 400 := by
  constructor
  · have hgv : ∃ e, (get_video_info [] url now (ExtractOutcome.raised m) st).1
        = Except.error e := by
      by_cases hv : is_valid_youtube_url url
      · exact ⟨"Error fetching video info: " ++ m,
          by simp [get_video_info, hv, cache_lookup, cache_find]⟩
      · exact ⟨"Not a valid YouTube URL", by simp [get_video_info, hv]⟩
    obtain ⟨e, he⟩ := hgv
    simp [fetch_info_route, hu, he]
  · simp [download_route, download_video, hu, hf]

theorem C3_amended_witness :
    ("https://www.youtube.com/watch?v=abc" : String) ≠ "" ∧ ("137" : String) ≠ "" ∧
    (fetch_info_route (some "https://www.youtube.com/watch?v=abc") [] 0
        (ExtractOutcome.raised "boom") 0
       = InfoResponse.err "Failed to extract video information. Please check if the URL is valid." 400 ∧
     download_route (some "https://www.youtube.com/watch?v=abc") (some "137")
        (DownloadOutcome.raised "boom") (fun _ => true)
       = DlResponse.err ("Error downloading video: " ++ "boom") 400) :=
  ⟨by decide, by decide,
    C3_amended_download_exposes_detail "https://www.youtube.com/watch?v=abc" "137" "boom"
      0 0 (fun _ => true) (by decide) (by decide)⟩

/-- C8: an entry created 3600 seconds or more before the lookup time is
reported as a miss, and the lookup neither removes nor modifies it in the
backing mapping. -/
theorem C8_expired_entry_is_miss_and_kept (c : InfoCache) (k : String) (now t : ℚ)
    (v : VideoInfo) (hfind : cache_find c k = some (t, v))
    (hexp : CACHE_EXPIRY ≤ now - t) :
    (cache_lookup c k now).1 = none ∧ (cache_lookup c k now).2 = c ∧
    cache_find (cache_lookup c k now).2 k = some (t, v) := by
  have hnl : ¬ (now - t < CACHE_EXPIRY) := not_lt.mpr hexp
  rw [cache_lookup, hfind]
  simp [hnl, hfind]

theorem C8_witness :
    cache_find [("k", ((0 : ℚ), exVideoInfo))] "k" = some (0, exVideoInfo) ∧
    CACHE_EXPIRY ≤ (3600 : ℚ) - 0 ∧
    ((cache_lookup [("k", ((0 : ℚ), exVideoInfo))] "k" 3600).1 = none ∧
     (cache_lookup [("k", ((0 : ℚ), exVideoInfo))] "k" 3600).2
       = [("k", ((0 : ℚ), exVideoInfo))] ∧
     cache_find (cache_lookup [("k", ((0 : ℚ), exVideoInfo))] "k" 3600).2 "k"
       = some (0, exVideoInfo)) :=
  ⟨rfl, by norm_num [CACHE_EXPIRY],
    C8_expired_entry_is_miss_and_kept [("k", ((0 : ℚ), exVideoInfo))] "k" 3600 0
      exVideoInfo rfl (by norm_num [CACHE_EXPIRY])⟩

/-- C9: when the extraction step fails (the engine raises, or returns no data
— which the source turns into its own raised exception), get_video_info
returns the cache unchanged: no entry is created or overwritten. -/
theorem C9_failed_extraction_leaves_cache (cache : InfoCache) (url : String)
    (now st : ℚ) :
    (∀ m, (get_video_info cache url now (ExtractOutcome.raised m) st).2 = cache) ∧
    (get_video_info cache url now ExtractOutcome.noData st).2 = cache := by
  constructor
  · intro m
    rw [get_video_info]
    split
    · rfl
    · split <;> rfl
  · rw [get_video_info]
    split
    · rfl
    · split <;> rfl

/-- C10: a reported filesize of exactly 0 bytes is handled exactly like an
absent filesize: the entry gets the unknown-size sentinel (not the real
0-byte label "0.0 KB" that format_file_size would produce), its sort key is
0, and the displayed string is "0 MB". -/
theorem C10_zero_size_is_unknown (f : RawFormat) (fs : List RawFormat) (url : String)
    (fmt : PFEntry) (hu : fmt.filesize = SizeLabel.unknownMB) :
    pf_entry { f with filesize := some 0 } = pf_entry { f with filesize := none } ∧
    (pf_entry { f with filesize := some 0 }).filesize = SizeLabel.unknownMB ∧
    (pf_entry { f with filesize := some 0 }).filesize ≠ format_file_size (some 0) ∧
    label_sort_key SizeLabel.unknownMB = 0 ∧
    (display_format fs url fmt).filesize = "0 MB" := by
  refine ⟨rfl, rfl, ?_, rfl, ?_⟩
  · have h2 : (pf_entry { f with filesize := some 0 }).filesize = SizeLabel.unknownMB := rfl
    rw [h2]
    decide
  · simp [display_format, hu]

theorem C10_witness :
    (pf_entry fmtZ).filesize = SizeLabel.unknownMB ∧
    (pf_entry { fmtZ with filesize := some 0 } = pf_entry { fmtZ with filesize := none } ∧
     (pf_entry { fmtZ with filesize := some 0 }).filesize = SizeLabel.unknownMB ∧
     (pf_entry { fmtZ with filesize := some 0 }).filesize ≠ format_file_size (some 0) ∧
     label_sort_key SizeLabel.unknownMB = 0 ∧
     (display_format [fmtZ] "u" (pf_entry fmtZ)).filesize = "0 MB") :=
  ⟨by decide, C10_zero_size_is_unknown fmtZ [fmtZ] "u" (pf_entry fmtZ) (by decide)⟩

end YtSpec
